import Mathlib

/-!
Shallow embedding of `fs/overlayfs/inode.c` (overlayfs node identity,
link-count codec and attribute passthrough) and proofs of the spec claims.

Conventions of the embedding:
* kernel `struct dentry` / `struct inode` pairs of the underlying layers are
  modelled by `RDentry` records; the identity of a real inode is its `ino`
  field (distinct physical inodes have distinct `ino`);
* machine `int` arithmetic is modelled on `Int` with an explicit wrap to the
  interval `[-2^31, 2^31)` (`wrap32`), matching the kernel's `-fno-strict-overflow`
  semantics; `unsigned`-to-`int` conversion is `toInt32`;
* fallible C calls return `Except Int α` carrying the negative errno;
* external collaborators (VFS callbacks, copy-up engine, credential swap)
  are parameters of the embedded functions, as the spec treats them
  (§6 External Interfaces).
-/

/-- Two's-complement wrap of an integer into `[-2^31, 2^31)`: the behaviour of
kernel `int` arithmetic (compiled with wrapping overflow). -/
def wrap32 (z : Int) : Int := (z + 2 ^ 31) % 2 ^ 32 - 2 ^ 31

/-- Conversion of an `unsigned int` value (a `Nat` below `2^32`) to `int`. -/
def toInt32 (n : Nat) : Int := wrap32 n

/-- C `isdigit` on a character. -/
def isDigitC (c : Char) : Bool := 48 ≤ c.toNat && c.toNat ≤ 57

/-- The ASCII digit character for `d < 10`, as produced by the kernel's
decimal printer. -/
def digitChar (d : Nat) : Char := Char.ofNat (48 + d)

/-- Fuel-indexed decimal printer: the digit list of `n`, most significant
first, provided `fuel` is large enough (`n < 10 ^ fuel`). -/
def natToDigitsF : Nat → Nat → List Char
  | 0, _ => []
  | fuel + 1, n =>
    if n < 10 then [digitChar n]
    else natToDigitsF fuel (n / 10) ++ [digitChar (n % 10)]

/-- Decimal digit list of `n`, most significant first (the output of the
kernel's `%i`-style printing of a non-negative number). -/
def natToDigits (n : Nat) : List Char := natToDigitsF (n + 1) n

/-- Accumulate the numeric value of a digit list, as the kernel's
`_parse_integer` does in base 10. -/
def parseNatDigits (l : List Char) : Nat :=
  l.foldl (fun a c => a * 10 + (c.toNat - 48)) 0

/-- Kernel `kstrto*` tolerates one trailing newline after the digits. -/
def kstrTail (l : List Char) : List Char :=
  if l.head? = some '\n' then l.tail else l

/-- Final range check of `kstrtoint`: the parsed value must fit in `int`. -/
def kstrRange (z : Int) : Except Int Int :=
  if z < -(2 ^ 31) ∨ (2 ^ 31 - 1) < z then .error (-34) else .ok z

/-- Digit-parsing core of `kstrtoint`, after the sign has been stripped:
at least one decimal digit, optionally one trailing newline, nothing else
(`-EINVAL` otherwise), then the range check. -/
def kstrtointCore (neg : Bool) (r : List Char) : Except Int Int :=
  if (r.takeWhile isDigitC).isEmpty then .error (-22)
  else if (kstrTail (r.dropWhile isDigitC)).isEmpty then
    kstrRange (if neg then -(parseNatDigits (r.takeWhile isDigitC) : Int)
               else (parseNatDigits (r.takeWhile isDigitC) : Int))
  else .error (-22)

/-- Kernel `kstrtoint` (base 10) on a character list: an optional single sign,
then at least one decimal digit, then optionally one trailing newline, and the
value must fit in `int`; everything else is `-EINVAL` / `-ERANGE`. -/
def kstrtoint (s : List Char) : Except Int Int :=
  if s.head? = some '-' then kstrtointCore true s.tail
  else if s.head? = some '+' then kstrtointCore false s.tail
  else kstrtointCore false s

/-- A real (underlying-layer) dentry/inode pair.  `ino` doubles as the
identity of the physical inode; `xattrNlink` is the result of reading its
`trusted.overlay.nlink` extended attribute (error or raw value). -/
structure RDentry where
  ino : Nat
  isDir : Bool
  nlink : Nat
  xattrNlink : Except Int (List Char)
  impuredir : Bool

/-!  ## Link-count codec (`ovl_set_nlink_common` / `ovl_get_nlink`)  -/

/-- `ovl_set_nlink_common`: encode the union/real link-count delta as
`{U|L}{+|-}digits` via `snprintf(buf, 13, "?%+i", inode->i_nlink - realinode->i_nlink)`;
`-EIO` if the formatted record does not fit the 13-byte buffer. -/
def ovl_set_nlink_common (inodeNlink realNlink : Nat) (sel : Char) : Except Int (List Char) :=
  let d : Int := wrap32 ((inodeNlink : Int) - (realNlink : Int))
  let buf : List Char := sel :: (if d < 0 then '-' else '+') :: natToDigits d.natAbs
  if 13 ≤ buf.length then .error (-5) else .ok buf

/-- `ovl_set_nlink_upper`: delta recorded relative to the upper inode. -/
def ovl_set_nlink_upper (inodeNlink upperNlink : Nat) : Except Int (List Char) :=
  ovl_set_nlink_common inodeNlink upperNlink 'U'

/-- `ovl_set_nlink_lower`: delta recorded relative to the lower inode. -/
def ovl_set_nlink_lower (inodeNlink lowerNlink : Nat) : Except Int (List Char) :=
  ovl_set_nlink_common inodeNlink lowerNlink 'L'

/-- Last step of `ovl_get_nlink`: add the parsed delta (`kstrtoint` result) to
the link count of the selected base inode, in `int` arithmetic; a parse error
or a non-positive result falls back. -/
def ovl_nlink_add (l u : RDentry) (fb : Nat) (c0 : Char) : Except Int Int → Nat
  | .error _ => fb
  | .ok nlinkDiff =>
    if wrap32 (toInt32 (if c0 = 'L' then l.nlink else u.nlink) + nlinkDiff) ≤ 0 then fb
    else (wrap32 (toInt32 (if c0 = 'L' then l.nlink else u.nlink) + nlinkDiff)).toNat

/-- Selector/sign validation step of `ovl_get_nlink` on the record buffer
(`buf[0]` must be `L`/`U`, `buf[1]` must be `+`/`-`, then `kstrtoint(buf + 1)`). -/
def ovl_nlink_buf (l u : RDentry) (fb : Nat) : List Char → Nat
  | c0 :: c1 :: rest =>
    if ¬(c0 = 'L' ∨ c0 = 'U') ∨ ¬(c1 = '+' ∨ c1 = '-') then fb
    else ovl_nlink_add l u fb c0 (kstrtoint (c1 :: rest))
  | _ => fb

/-- Xattr-read step of `ovl_get_nlink`: the record is read into a 12-byte
buffer, so a read error or a record longer than 12 bytes falls back. -/
def ovl_nlink_read (l u : RDentry) (fb : Nat) : Except Int (List Char) → Nat
  | .error _ => fb
  | .ok v => if 12 < v.length then fb else ovl_nlink_buf l u fb v

/-- `ovl_get_nlink`: decode the union link count from the record stored on the
upper/index inode, falling back to `fallback` on any failure (absent dentries,
lower link count 1, read failure, malformed record, non-positive result). -/
def ovl_get_nlink (lowerdentry upperdentry : Option RDentry) (fallback : Nat) : Nat :=
  match lowerdentry, upperdentry with
  | some l, some u =>
    if l.nlink = 1 then fallback
    else ovl_nlink_read l u fallback u.xattrNlink
  | _, _ => fallback

/-!  ## Arithmetic groundwork for the codec proofs  -/

theorem lt_pow10_succ (n : Nat) : n < 10 ^ (n + 1) := by
  induction n with
  | zero => norm_num
  | succ k ih =>
    have h : 10 ^ (k + 1) ≤ 10 ^ (k + 1 + 1) := Nat.pow_le_pow_right (by omega) (by omega)
    omega

theorem digitChar_toNat : ∀ d, d < 10 → (digitChar d).toNat = 48 + d := by decide

theorem isDigitC_digitChar : ∀ d, d < 10 → isDigitC (digitChar d) = true := by decide

theorem natToDigitsF_ne_nil (fuel : Nat) :
    ∀ n, 1 ≤ fuel → natToDigitsF fuel n ≠ [] := by
  induction fuel with
  | zero => intro n h; omega
  | succ k ih =>
    intro n h
    rw [natToDigitsF]
    split
    · simp
    · simp

theorem natToDigitsF_all_digits (fuel : Nat) :
    ∀ n, n < 10 ^ fuel → ∀ c ∈ natToDigitsF fuel n, isDigitC c = true := by
  induction fuel with
  | zero => intro n hn c hc; simp [natToDigitsF] at hc
  | succ k ih =>
    intro n hn c hc
    rw [natToDigitsF] at hc
    by_cases h10 : n < 10
    · simp [h10] at hc
      subst hc
      exact isDigitC_digitChar n h10
    · simp [h10] at hc
      rcases hc with hc | hc
      · have hdiv : n / 10 < 10 ^ k := by
          have hk1 : 10 ^ k * 10 = 10 ^ (k + 1) := by rw [← pow_succ]
          omega
        exact ih (n / 10) hdiv c hc
      · subst hc
        exact isDigitC_digitChar (n % 10) (by omega)

theorem natToDigitsF_foldl (fuel : Nat) :
    ∀ n a, n < 10 ^ fuel →
      (natToDigitsF fuel n).foldl (fun a c => a * 10 + (c.toNat - 48)) a
        = a * 10 ^ (natToDigitsF fuel n).length + n := by
  induction fuel with
  | zero =>
    intro n a hn
    simp only [natToDigitsF, List.foldl_nil, List.length_nil, pow_zero]
    simp only [pow_zero] at hn
    omega
  | succ k ih =>
    intro n a hn
    rw [natToDigitsF]
    by_cases h10 : n < 10
    · simp only [h10, if_true, List.foldl_cons, List.foldl_nil, List.length_cons,
        List.length_nil, digitChar_toNat n h10, zero_add, pow_one]
      omega
    · have hdiv : n / 10 < 10 ^ k := by
        have hk1 : 10 ^ k * 10 = 10 ^ (k + 1) := by rw [← pow_succ]
        omega
      simp only [h10, if_false, List.foldl_append, List.length_append, List.foldl_cons,
        List.foldl_nil, List.length_cons, List.length_nil]
      rw [ih (n / 10) a hdiv]
      rw [digitChar_toNat (n % 10) (by omega)]
      have hpow : a * 10 ^ ((natToDigitsF k (n / 10)).length + (0 + 1))
          = a * 10 ^ (natToDigitsF k (n / 10)).length * 10 := by
        rw [pow_succ]; ring
      omega

theorem natToDigitsF_length_le (fuel : Nat) :
    ∀ n k, n < 10 ^ fuel → n < 10 ^ k → 1 ≤ k →
      (natToDigitsF fuel n).length ≤ k := by
  induction fuel with
  | zero =>
    intro n k hn hk hk1
    simp only [natToDigitsF, List.length_nil]
    omega
  | succ f ih =>
    intro n k hn hk hk1
    rw [natToDigitsF]
    by_cases h10 : n < 10
    · simpa [h10] using hk1
    · have hkk : 2 ≤ k := by
        by_contra hc
        have hk1' : k = 1 := by omega
        subst hk1'
        simp at hk
        omega
      have hdivf : n / 10 < 10 ^ f := by
        have : 10 ^ f * 10 = 10 ^ (f + 1) := by rw [← pow_succ]
        omega
      have hdivk : n / 10 < 10 ^ (k - 1) := by
        have : 10 ^ (k - 1) * 10 = 10 ^ k := by
          rw [← pow_succ]
          congr 1
          omega
        omega
      have := ih (n / 10) (k - 1) hdivf hdivk (by omega)
      simp [h10]
      omega

theorem natToDigits_ne_nil (n : Nat) : natToDigits n ≠ [] :=
  natToDigitsF_ne_nil (n + 1) n (by omega)

theorem natToDigits_all_digits (n : Nat) : ∀ c ∈ natToDigits n, isDigitC c = true :=
  natToDigitsF_all_digits (n + 1) n (lt_pow10_succ n)

theorem natToDigits_foldl (n : Nat) :
    (natToDigits n).foldl (fun a c => a * 10 + (c.toNat - 48)) 0 = n := by
  have := natToDigitsF_foldl (n + 1) n 0 (lt_pow10_succ n)
  simpa [natToDigits] using this

theorem natToDigits_length_le (n k : Nat) (hk : n < 10 ^ k) (hk1 : 1 ≤ k) :
    (natToDigits n).length ≤ k :=
  natToDigitsF_length_le (n + 1) n k (lt_pow10_succ n) hk hk1

theorem takeWhile_eq_self_of_all (p : Char → Bool) (l : List Char)
    (h : ∀ c ∈ l, p c = true) : l.takeWhile p = l ∧ l.dropWhile p = [] := by
  induction l with
  | nil => simp
  | cons a as ih =>
    have ha := h a (by simp)
    have ih2 := ih fun c hc => h c (by simp [hc])
    simp [List.takeWhile_cons, List.dropWhile_cons, ha, ih2.1, ih2.2]

theorem kstrtointCore_digits (neg : Bool) (m : Nat) :
    kstrtointCore neg (natToDigits m)
      = kstrRange (if neg then -(m : Int) else (m : Int)) := by
  have hall := natToDigits_all_digits m
  have htk := takeWhile_eq_self_of_all isDigitC (natToDigits m) hall
  have hne := natToDigits_ne_nil m
  rw [kstrtointCore, htk.1, htk.2]
  rw [if_neg (by simpa using hne)]
  simp [kstrTail, parseNatDigits, natToDigits_foldl m]

theorem kstrtoint_pos (m : Nat) (hm : m ≤ 2 ^ 31 - 1) :
    kstrtoint ('+' :: natToDigits m) = .ok (m : Int) := by
  rw [kstrtoint]
  rw [if_neg (by simp)]
  rw [if_pos (by simp)]
  simp only [List.tail_cons]
  rw [kstrtointCore_digits false m]
  simp only [if_false, Bool.false_eq_true]
  rw [kstrRange, if_neg (by omega)]

theorem kstrtoint_neg (m : Nat) (hm : m ≤ 2 ^ 31) :
    kstrtoint ('-' :: natToDigits m) = .ok (-(m : Int)) := by
  rw [kstrtoint]
  rw [if_pos (by simp)]
  simp only [List.tail_cons]
  rw [kstrtointCore_digits true m]
  simp only [if_true]
  rw [kstrRange, if_neg (by omega)]

theorem wrap32_eq_self (z : Int) (h1 : -(2 ^ 31) ≤ z) (h2 : z < 2 ^ 31) :
    wrap32 z = z := by
  unfold wrap32
  omega

theorem toInt32_small (n : Nat) (h : n < 2 ^ 31) : toInt32 n = (n : Int) := by
  unfold toInt32 wrap32
  omega

/-- Decoding a just-encoded record against the unmodified base reconstructs
the union link count (core of the round-trip property, both selectors). -/
theorem ovl_get_nlink_decode_ok (c0 : Char) (nn : Nat) (l u : RDentry) (fb : Nat)
    (rec : List Char)
    (hc0 : c0 = 'U' ∨ c0 = 'L')
    (hln1 : l.nlink ≠ 1) (hnn1 : 1 ≤ nn) (hnnB : nn < 2 ^ 31)
    (hlB : l.nlink < 2 ^ 31) (huB : u.nlink < 2 ^ 31)
    (henc : ovl_set_nlink_common nn (if c0 = 'L' then l.nlink else u.nlink) c0 = .ok rec)
    (hx : u.xattrNlink = .ok rec) :
    ovl_get_nlink (some l) (some u) fb = nn := by
  set base := if c0 = 'L' then l.nlink else u.nlink with hbase
  have hbaseB : base < 2 ^ 31 := by
    rw [hbase]
    split <;> assumption
  rw [ovl_set_nlink_common] at henc
  set d : Int := wrap32 ((nn : Int) - (base : Int)) with hd
  have hdval : d = (nn : Int) - (base : Int) := by
    rw [hd]
    apply wrap32_eq_self <;> omega
  by_cases hdneg : d < 0
  · rw [if_pos hdneg] at henc
    by_cases hlen : 13 ≤ (c0 :: '-' :: natToDigits d.natAbs).length
    · rw [if_pos hlen] at henc
      exact absurd henc (by simp)
    · rw [if_neg hlen] at henc
      have hrec : rec = c0 :: '-' :: natToDigits d.natAbs := by
        simp only [Except.ok.injEq] at henc
        exact henc.symm
      simp only [List.length_cons] at hlen
      simp only [ovl_get_nlink]
      rw [if_neg hln1, hx, hrec]
      simp only [ovl_nlink_read]
      rw [if_neg (by simp only [List.length_cons]; omega)]
      simp only [ovl_nlink_buf]
      rw [if_neg (by rcases hc0 with h | h <;> simp [h])]
      have habs : ((d.natAbs : Int)) = -d := by omega
      rw [kstrtoint_neg d.natAbs (by omega)]
      simp only [ovl_nlink_add]
      rw [← hbase, toInt32_small base hbaseB, habs]
      have hsum : wrap32 ((base : Int) + -(-d)) = (nn : Int) := by
        rw [hdval]
        have harr : (base : Int) + -(-((nn : Int) - (base : Int))) = (nn : Int) := by ring
        rw [harr]
        apply wrap32_eq_self <;> omega
      rw [hsum]
      rw [if_neg (by omega)]
      omega
  · rw [if_neg hdneg] at henc
    by_cases hlen : 13 ≤ (c0 :: '+' :: natToDigits d.natAbs).length
    · rw [if_pos hlen] at henc
      exact absurd henc (by simp)
    · rw [if_neg hlen] at henc
      have hrec : rec = c0 :: '+' :: natToDigits d.natAbs := by
        simp only [Except.ok.injEq] at henc
        exact henc.symm
      simp only [List.length_cons] at hlen
      simp only [ovl_get_nlink]
      rw [if_neg hln1, hx, hrec]
      simp only [ovl_nlink_read]
      rw [if_neg (by simp only [List.length_cons]; omega)]
      simp only [ovl_nlink_buf]
      rw [if_neg (by rcases hc0 with h | h <;> simp [h])]
      have habs : ((d.natAbs : Int)) = d := by omega
      rw [kstrtoint_pos d.natAbs (by omega)]
      simp only [ovl_nlink_add]
      rw [← hbase, toInt32_small base hbaseB, habs]
      have hsum : wrap32 ((base : Int) + d) = (nn : Int) := by
        rw [hdval]
        have harr : (base : Int) + ((nn : Int) - (base : Int)) = (nn : Int) := by ring
        rw [harr]
        apply wrap32_eq_self <;> omega
      rw [hsum]
      rw [if_neg (by omega)]
      omega

/-- C3: round-trip of the link-count codec: encoding the record
`{U|L}{+|-}digits` with `delta = node.nlink - base.nlink`
(`ovl_set_nlink_common`) and decoding it (`ovl_get_nlink`) against an
unmodified base object reconstructs `node.nlink` exactly, for any delta in
`int` range; in particular encoding with `base.nlink = 3`, `node.nlink = 5`,
selector upper yields `"U+2"`, and decoding that record when the upper
object's nlink has become 4 returns 6. -/
theorem ovl_nlink_roundtrip (sel : Bool) (nn : Nat) (l u : RDentry) (fb : Nat)
    (rec : List Char)
    (hln1 : l.nlink ≠ 1) (hnn1 : 1 ≤ nn) (hnnB : nn < 2 ^ 31)
    (hlB : l.nlink < 2 ^ 31) (huB : u.nlink < 2 ^ 31)
    (henc : (if sel then ovl_set_nlink_upper nn u.nlink
             else ovl_set_nlink_lower nn l.nlink) = .ok rec)
    (hx : u.xattrNlink = .ok rec) :
    ovl_get_nlink (some l) (some u) fb = nn
    ∧ ovl_set_nlink_upper 5 3 = .ok ['U', '+', '2']
    ∧ ovl_get_nlink
        (some { ino := 1, isDir := false, nlink := 2,
                xattrNlink := .error (-61), impuredir := false })
        (some { ino := 2, isDir := false, nlink := 4,
                xattrNlink := .ok ['U', '+', '2'], impuredir := false }) 9 = 6 := by
  refine ⟨?_, by rfl, by rfl⟩
  cases sel with
  | true =>
    rw [if_pos rfl] at henc
    exact ovl_get_nlink_decode_ok 'U' nn l u fb rec (Or.inl rfl) hln1 hnn1 hnnB hlB huB
      (by simpa [ovl_set_nlink_upper] using henc) hx
  | false =>
    rw [if_neg (by simp)] at henc
    exact ovl_get_nlink_decode_ok 'L' nn l u fb rec (Or.inr rfl) hln1 hnn1 hnnB hlB huB
      (by simpa [ovl_set_nlink_lower] using henc) hx

/-- Witness for C3 at `node.nlink = 5`, upper base `nlink = 3`. -/
theorem ovl_nlink_roundtrip_witness :
    ovl_get_nlink
      (some { ino := 1, isDir := false, nlink := 2,
              xattrNlink := .error (-61), impuredir := false })
      (some { ino := 2, isDir := false, nlink := 3,
              xattrNlink := .ok ['U', '+', '2'], impuredir := false }) 9 = 5
    ∧ ovl_set_nlink_upper 5 3 = .ok ['U', '+', '2']
    ∧ ovl_get_nlink
        (some { ino := 1, isDir := false, nlink := 2,
                xattrNlink := .error (-61), impuredir := false })
        (some { ino := 2, isDir := false, nlink := 4,
                xattrNlink := .ok ['U', '+', '2'], impuredir := false }) 9 = 6 :=
  ovl_nlink_roundtrip true 5
    { ino := 1, isDir := false, nlink := 2, xattrNlink := .error (-61), impuredir := false }
    { ino := 2, isDir := false, nlink := 3, xattrNlink := .ok ['U', '+', '2'], impuredir := false }
    9 ['U', '+', '2'] (by decide) (by decide) (by decide) (by decide) (by decide)
    (by rfl) (by rfl)

/-!  ## C4: claim-shaped characterisation of the decoder  -/

/-- Claim-side reading step: a record is available unless the xattr read
failed or the value exceeds the 12-byte read buffer (both "read failure"). -/
def nlinkRecordRead : Except Int (List Char) → Option (List Char)
  | .error _ => none
  | .ok v => if 12 < v.length then none else some v

/-- Claim-side delta handling: fallback on a non-integer delta or a resulting
count ≤ 0, otherwise the selected base link count plus the delta. -/
def nlinkSpecAdd (l u : RDentry) (fb : Nat) (cs : List Char) : Except Int Int → Nat
  | .error _ => fb
  | .ok d =>
    if wrap32 (toInt32 (if cs.head? = some 'L' then l.nlink else u.nlink) + d) ≤ 0
    then fb
    else (wrap32 (toInt32 (if cs.head? = some 'L' then l.nlink else u.nlink) + d)).toNat

/-- Claim-side record handling: fallback when the read-only link count is 1 or
the record is malformed (bad selector letter, bad sign character, then the
delta cases of `nlinkSpecAdd`). -/
def nlinkSpecRecord (l u : RDentry) (fb : Nat) : Option (List Char) → Nat
  | none => fb
  | some cs =>
    if l.nlink = 1 then fb
    else if ¬(cs.head? = some 'U' ∨ cs.head? = some 'L') then fb
    else if ¬(cs.tail.head? = some '+' ∨ cs.tail.head? = some '-') then fb
    else nlinkSpecAdd l u fb cs (kstrtoint cs.tail)

/-- `ovl_get_nlink` as the spec's §4.2/§8 wording describes it: return the
fallback whenever an object is absent, the read-only object's own link count
is 1, or the stored record is malformed (bad selector letter, bad sign
character, non-integer delta, read failure, or a resulting count ≤ 0);
in every other case return the selected base object's link count plus the
decoded delta (in `int` arithmetic).  It never returns a hard error. -/
def ovl_get_nlink_spec (lowerdentry upperdentry : Option RDentry) (fallback : Nat) : Nat :=
  match lowerdentry, upperdentry with
  | some l, some u => nlinkSpecRecord l u fallback (nlinkRecordRead u.xattrNlink)
  | _, _ => fallback

/-- C4: the decoder returns the supplied fallback — and never a hard error —
exactly in the enumerated failure cases (absent read-only object, absent
writable object, read-only link count 1, malformed record: bad selector, bad
sign, non-integer delta, read failure, or resulting count ≤ 0), and in every
other case returns the selected base object's link count plus the decoded
delta: `ovl_get_nlink` coincides with the claim-shaped `ovl_get_nlink_spec`
on all inputs. -/
theorem ovl_get_nlink_matches_spec (lowerdentry upperdentry : Option RDentry)
    (fallback : Nat) :
    ovl_get_nlink lowerdentry upperdentry fallback
      = ovl_get_nlink_spec lowerdentry upperdentry fallback := by
  rcases lowerdentry with _ | l
  · simp [ovl_get_nlink, ovl_get_nlink_spec]
  rcases upperdentry with _ | u
  · simp [ovl_get_nlink, ovl_get_nlink_spec]
  simp only [ovl_get_nlink, ovl_get_nlink_spec]
  rcases hux : u.xattrNlink with e | v
  · simp only [nlinkRecordRead, ovl_nlink_read, nlinkSpecRecord]
    split <;> rfl
  · simp only [nlinkRecordRead, ovl_nlink_read]
    by_cases hlen : 12 < v.length
    · rw [if_pos hlen, if_pos hlen]
      simp only [nlinkSpecRecord]
      split <;> rfl
    · rw [if_neg hlen, if_neg hlen]
      simp only [nlinkSpecRecord]
      by_cases h1 : l.nlink = 1
      · rw [if_pos h1, if_pos h1]
      · rw [if_neg h1, if_neg h1]
        rcases v with _ | ⟨c0, _ | ⟨c1, rest⟩⟩
        · simp [ovl_nlink_buf]
        · simp only [ovl_nlink_buf, List.head?_cons, List.tail_cons, List.head?_nil]
          split <;> simp
        · simp only [ovl_nlink_buf, List.head?_cons, List.tail_cons, Option.some.injEq]
          by_cases ha : c0 = 'L' ∨ c0 = 'U'
          · by_cases hb : c1 = '+' ∨ c1 = '-'
            · rw [if_neg (by tauto)]
              rw [if_neg (by tauto), if_neg (by tauto)]
              rcases hk : kstrtoint (c1 :: rest) with e | dd
              · simp [ovl_nlink_add, nlinkSpecAdd]
              · simp [ovl_nlink_add, nlinkSpecAdd]
            · rw [if_pos (by tauto)]
              rw [if_neg (by tauto), if_pos (by tauto)]
          · rw [if_pos (by tauto)]
            rw [if_pos (by tauto)]

/-!  ## Node identity resolver (`ovl_hash_bylower`, `ovl_verify_inode`,
`ovl_get_inode`)  -/

/-- Mount-wide configuration bits consulted by the resolver:
`ofs->upper_mnt` (a writable layer is configured), `ovl_indexdir(sb)` (an
index area is configured) and `sb->s_export_op` (stable-handle export). -/
structure OvlFsCfg where
  upperMnt : Bool
  indexDir : Bool
  exportOp : Bool
  deriving DecidableEq

/-- `ovl_hash_bylower`: should the overlay inode be hashed by the lower
(read-only origin) inode? -/
def ovl_hash_bylower (cfg : OvlFsCfg) (upper lower indexd : Option RDentry) : Bool :=
  match lower with
  | none => false
  | some l =>
    if indexd.isSome then true
    else if !cfg.upperMnt then true
    else if (upper.isSome || !cfg.indexDir) && !l.isDir && decide (1 < l.nlink) then false
    else if cfg.exportOp && upper.isSome then false
    else true

/-- The cache-key policy as the claim's precedence chain words it: no read-only
origin → `false`; an index object exists → `true`; no writable layer → `true`;
a hard-link with count > 1 on a non-directory read-only object, no index
object, and (a writable object exists or no index area is configured) →
`false`; stable-handle export and a writable object → `false`; otherwise
`true`. -/
def ovl_hash_bylower_spec (cfg : OvlFsCfg) (upper lower indexd : Option RDentry) : Bool :=
  if lower.isNone then false
  else if indexd.isSome then true
  else if !cfg.upperMnt then true
  else if (match lower with | some l => !l.isDir && decide (1 < l.nlink) | none => false)
          && indexd.isNone && (upper.isSome || !cfg.indexDir) then false
  else if cfg.exportOp && upper.isSome then false
  else true

/-- C1: the cache-key policy `ovl_hash_bylower` follows exactly the documented
precedence chain (`ovl_hash_bylower_spec`, written from the claim's words). -/
theorem ovl_hash_bylower_matches_spec (cfg : OvlFsCfg) (upper lower indexd : Option RDentry) :
    ovl_hash_bylower cfg upper lower indexd = ovl_hash_bylower_spec cfg upper lower indexd := by
  rcases lower with _ | l
  · rfl
  · rcases indexd with _ | i <;> rcases upper with _ | up <;>
      cases hum : cfg.upperMnt <;> cases hidx : cfg.indexDir <;> cases hex : cfg.exportOp <;>
      cases hd : l.isDir <;> by_cases hn : 1 < l.nlink <;>
      simp [ovl_hash_bylower, ovl_hash_bylower_spec, hum, hidx, hex, hd, hn]

/-- The overlay (logical) inode: node kind, the stored origin (`lower`) and
upper references (by physical-inode identity), the union link count and the
impurity flag. -/
structure OvlInode where
  isDir : Bool
  lower : Option Nat
  upper : Option Nat
  nlink : Nat
  impure : Bool
  deriving DecidableEq

/-- `ovl_verify_inode`: check that the underlying inodes stored in the overlay
inode match those supplied by the present lookup. -/
def ovl_verify_inode (ino : OvlInode) (lowerdentry upperdentry : Option Nat) : Bool :=
  if ino.isDir && lowerdentry.isNone && ino.lower.isSome then false
  else if ino.isDir && upperdentry.isNone && ino.upper.isSome then false
  else if (match lowerdentry with
           | some lid => decide (ino.lower ≠ some lid)
           | none => false) then false
  else if (match upperdentry with
           | some uid => decide (ino.upper ≠ some uid)
           | none => false) then false
  else true

/-- The claim-side enumeration of verification failure: a supplied lower that
differs from the stored origin, a supplied upper that differs from the stored
upper, or — for directories only — an absent argument for a slot the node
fills.  An absent argument for a filled slot of a non-directory never fails. -/
def verifyFailsSpec (ino : OvlInode) (lo up : Option Nat) : Bool :=
  (match lo with | some lid => decide (ino.lower ≠ some lid) | none => false) ||
  (match up with | some uid => decide (ino.upper ≠ some uid) | none => false) ||
  (ino.isDir && lo.isNone && ino.lower.isSome) ||
  (ino.isDir && up.isNone && ino.upper.isSome)

theorem ovl_verify_inode_eq_not_fails (ino : OvlInode) (lo up : Option Nat) :
    ovl_verify_inode ino lo up = !verifyFailsSpec ino lo up := by
  rcases lo with _ | lid <;> rcases up with _ | uid <;>
    cases hd : ino.isDir <;>
    simp [ovl_verify_inode, verifyFailsSpec, hd, Bool.and_comm]

/-- Environment of one `ovl_get_inode` resolution: mount configuration, the
inode cache (`iget5_locked` keyed by real-inode identity), the three candidate
dentries and whether inode allocation succeeds. -/
structure GetInodeEnv where
  cfg : OvlFsCfg
  cache : Nat → Option OvlInode
  lowerdentry : Option RDentry
  upperdentry : Option RDentry
  indexd : Option RDentry
  newInodeOk : Bool

/-- `realinode = upperdentry ? d_inode(upperdentry) : d_inode(lowerdentry)`. -/
def realOf : Option RDentry → Option RDentry → Option RDentry
  | some u, _ => some u
  | none, lo => lo

/-- `ovl_is_impuredir(upperdentry)` guard of `ovl_get_inode`. -/
def impureOf : Option RDentry → Bool
  | some u => u.impuredir
  | none => false

/-- Cache-hit/miss step of `ovl_get_inode` (`iget5_locked` result): an
existing inode is verified (`-ESTALE` on failure); a fresh one is populated
from the representative real inode, with the non-directory link count
recalculated through the codec. -/
def ovl_get_inode_cached (env : GetInodeEnv) (realinode : RDentry) :
    Option OvlInode → Except Int OvlInode
  | some ino0 =>
    if ovl_verify_inode ino0 (env.lowerdentry.map RDentry.ino) (env.upperdentry.map RDentry.ino)
    then .ok ino0
    else .error (-116)
  | none =>
    if env.newInodeOk then
      .ok { isDir := realinode.isDir,
            lower := env.lowerdentry.map RDentry.ino,
            upper := env.upperdentry.map RDentry.ino,
            nlink := if realinode.isDir then 1
                     else ovl_get_nlink env.lowerdentry env.upperdentry realinode.nlink,
            impure := impureOf env.upperdentry }
    else .error (-12)

/-- Key-selection step of `ovl_get_inode`: the cache is consulted under the
selected key's physical-inode identity.  The `none` arm is unreachable for a
valid overlay dentry (the selected key object is present whenever this step
is entered); the C code would dereference a null pointer there. -/
def ovl_get_inode_key (env : GetInodeEnv) (realinode : RDentry) :
    Option RDentry → Except Int OvlInode
  | none => .error (-14)
  | some keyd => ovl_get_inode_cached env realinode (env.cache keyd.ino)

/-- Body of `ovl_get_inode` once the representative real inode is known:
hashed lookup when an upper object exists or the policy keys by lower,
otherwise an anonymous inode for a lower hardlink that will be broken on
copy-up. -/
def ovl_get_inode_real (env : GetInodeEnv) : Option RDentry → Except Int OvlInode
  | none => .error (-14)
  | some realinode =>
    if env.upperdentry.isSome
        || ovl_hash_bylower env.cfg env.upperdentry env.lowerdentry env.indexd then
      ovl_get_inode_key env realinode
        (if ovl_hash_bylower env.cfg env.upperdentry env.lowerdentry env.indexd
         then env.lowerdentry else env.upperdentry)
    else if env.newInodeOk then
      .ok { isDir := realinode.isDir,
            lower := env.lowerdentry.map RDentry.ino,
            upper := env.upperdentry.map RDentry.ino,
            nlink := 1,
            impure := impureOf env.upperdentry }
    else .error (-12)

/-- `ovl_get_inode`: build or find the overlay inode for the discovered
underlying objects. -/
def ovl_get_inode (env : GetInodeEnv) : Except Int OvlInode :=
  ovl_get_inode_real env (realOf env.upperdentry env.lowerdentry)

/-- Cache-hit outcome characterised by the claim-side failure enumeration. -/
theorem ovl_get_inode_cached_spec (env : GetInodeEnv) (realinode : RDentry)
    (ino0 : OvlInode) :
    (ovl_get_inode_cached env realinode (some ino0) = .ok ino0
      ↔ verifyFailsSpec ino0 (env.lowerdentry.map RDentry.ino)
          (env.upperdentry.map RDentry.ino) = false)
    ∧ (verifyFailsSpec ino0 (env.lowerdentry.map RDentry.ino)
          (env.upperdentry.map RDentry.ino) = true
        → ovl_get_inode_cached env realinode (some ino0) = .error (-116)) := by
  simp only [ovl_get_inode_cached,
    ovl_verify_inode_eq_not_fails ino0 (env.lowerdentry.map RDentry.ino)
      (env.upperdentry.map RDentry.ino)]
  cases hv : verifyFailsSpec ino0 (env.lowerdentry.map RDentry.ino)
      (env.upperdentry.map RDentry.ino) <;> simp [hv]

/-- C2: when a resolution finds an existing cached node, `ovl_get_inode`
returns that node iff verification succeeds and otherwise returns the
distinct stale-identity error `-ESTALE`; verification fails exactly when a
supplied read-only object differs from the stored origin reference, a
supplied writable object differs from the stored upper reference, or — for
directories — the node holds a lower (resp. upper) reference while the
lookup supplies none; an absent argument for a filled slot of a
non-directory never invalidates the node (`verifyFailsSpec`). -/
theorem ovl_get_inode_found_cached (env : GetInodeEnv) (keyd : RDentry) (ino0 : OvlInode)
    (hkey : (if ovl_hash_bylower env.cfg env.upperdentry env.lowerdentry env.indexd
             then env.lowerdentry else env.upperdentry) = some keyd)
    (hcache : env.cache keyd.ino = some ino0) :
    (ovl_get_inode env = .ok ino0
      ↔ verifyFailsSpec ino0 (env.lowerdentry.map RDentry.ino)
          (env.upperdentry.map RDentry.ino) = false)
    ∧ (verifyFailsSpec ino0 (env.lowerdentry.map RDentry.ino)
          (env.upperdentry.map RDentry.ino) = true
        → ovl_get_inode env = .error (-116)) := by
  by_cases hby : ovl_hash_bylower env.cfg env.upperdentry env.lowerdentry env.indexd = true
  · rw [if_pos hby] at hkey
    rcases hup : env.upperdentry with _ | up
    · have hreal : realOf env.upperdentry env.lowerdentry = some keyd := by
        rw [hup, hkey]; rfl
      rw [ovl_get_inode, hreal]
      simp only [ovl_get_inode_real]
      rw [if_pos (by rw [hby]; simp)]
      rw [if_pos hby, hkey]
      simp only [ovl_get_inode_key]
      rw [hcache]
      simpa [hkey, hup] using ovl_get_inode_cached_spec env keyd ino0
    · have hreal : realOf env.upperdentry env.lowerdentry = some up := by
        rw [hup]; rfl
      rw [ovl_get_inode, hreal]
      simp only [ovl_get_inode_real]
      rw [if_pos (by rw [hby]; simp)]
      rw [if_pos hby, hkey]
      simp only [ovl_get_inode_key]
      rw [hcache]
      simpa [hkey, hup] using ovl_get_inode_cached_spec env up ino0
  · rw [if_neg hby] at hkey
    have hupkey : env.upperdentry = some keyd := hkey
    have hreal : realOf env.upperdentry env.lowerdentry = some keyd := by
      rw [hupkey]; rfl
    rw [ovl_get_inode, hreal]
    simp only [ovl_get_inode_real]
    rw [if_pos (by rw [hupkey]; simp)]
    rw [if_neg hby, hupkey]
    simp only [ovl_get_inode_key]
    rw [hcache]
    simpa [hupkey] using ovl_get_inode_cached_spec env keyd ino0

/-- Witness for C2: a cache hit on an upper-keyed resolution of a regular
file; the cached node stores exactly the supplied upper inode, so
verification succeeds and the cached node is returned. -/
theorem ovl_get_inode_found_cached_witness :
    (ovl_get_inode
        { cfg := { upperMnt := true, indexDir := false, exportOp := false },
          cache := fun i => if i = 5 then
              some { isDir := false, lower := none, upper := some 5,
                     nlink := 2, impure := false }
            else none,
          lowerdentry := none,
          upperdentry := some { ino := 5, isDir := false, nlink := 2,
                                xattrNlink := .error (-61), impuredir := false },
          indexd := none,
          newInodeOk := true }
      = .ok { isDir := false, lower := none, upper := some 5, nlink := 2, impure := false }
      ↔ verifyFailsSpec
          { isDir := false, lower := none, upper := some 5, nlink := 2, impure := false }
          none (some 5) = false)
    ∧ (verifyFailsSpec
          { isDir := false, lower := none, upper := some 5, nlink := 2, impure := false }
          none (some 5) = true
        → ovl_get_inode
            { cfg := { upperMnt := true, indexDir := false, exportOp := false },
              cache := fun i => if i = 5 then
                  some { isDir := false, lower := none, upper := some 5,
                         nlink := 2, impure := false }
                else none,
              lowerdentry := none,
              upperdentry := some { ino := 5, isDir := false, nlink := 2,
                                    xattrNlink := .error (-61), impuredir := false },
              indexd := none,
              newInodeOk := true }
          = .error (-116)) :=
  ovl_get_inode_found_cached
    { cfg := { upperMnt := true, indexDir := false, exportOp := false },
      cache := fun i => if i = 5 then
          some { isDir := false, lower := none, upper := some 5,
                 nlink := 2, impure := false }
        else none,
      lowerdentry := none,
      upperdentry := some { ino := 5, isDir := false, nlink := 2,
                            xattrNlink := .error (-61), impuredir := false },
      indexd := none,
      newInodeOk := true }
    { ino := 5, isDir := false, nlink := 2, xattrNlink := .error (-61), impuredir := false }
    { isDir := false, lower := none, upper := some 5, nlink := 2, impure := false }
    rfl rfl

/-!  ## Stat projection (`ovl_getattr`)  -/

/-- Result of a `vfs_getattr` on an underlying path (only the fields the
projection logic touches). -/
structure Kstat where
  dev : Nat
  ino : Nat
  nlink : Nat
  deriving DecidableEq

/-- Environment of one `ovl_getattr` call: the build-time
`CONFIG_KSU_SUSFS_SUS_OVERLAYFS` flag, the lower-data path (`none` when
`ovl_path_lowerdata` yields no mount/dentry, otherwise the `vfs_getattr`
result on it), the `vfs_getattr` results on the real and lower paths, and the
overlay-side data consulted by the projection. -/
structure GetattrEnv where
  susfs : Bool
  lowerdata : Option (Except Int Kstat)
  isDir : Bool
  realStat : Except Int Kstat
  sameSb : Bool
  typeOrigin : Bool
  typeMerge : Bool
  lowerStat : Except Int Kstat
  sDev : Nat
  inodeIno : Nat
  inodeNlink : Nat
  flagIndex : Bool

/-- Tail adjustments of `ovl_getattr`: force `nlink = 1` for merged
directories and report the overlay inode's nlink for indexed non-directories. -/
def statFinish (env : GetattrEnv) (s : Kstat) : Kstat :=
  if !env.isDir && env.flagIndex
  then { (if env.isDir && env.typeMerge then { s with nlink := 1 } else s)
         with nlink := env.inodeNlink }
  else (if env.isDir && env.typeMerge then { s with nlink := 1 } else s)

/-- Origin branch of `ovl_getattr` (same-storage mount with a tracked
origin): rewrite `st_ino` to the origin's when safe, then `st_dev` to the
overlay's. -/
def ovl_getattr_origin (env : GetattrEnv) (stat0 : Kstat) :
    Except Int Kstat → Except Int Kstat
  | .error e => .error e
  | .ok lowerstat =>
    .ok (statFinish env
      { (if env.isDir = true ∨ lowerstat.nlink = 1 ∨ env.flagIndex = true
         then { stat0 with ino := lowerstat.ino } else stat0)
        with dev := env.sDev })

/-- `ovl_getattr` after the (possible) SUSFS short-circuit: query the real
path, then apply the projection rules. -/
def ovl_getattr_core (env : GetattrEnv) : Except Int Kstat → Except Int Kstat
  | .error e => .error e
  | .ok stat0 =>
    if env.sameSb then
      if env.typeOrigin then ovl_getattr_origin env stat0 env.lowerStat
      else .ok (statFinish env { stat0 with dev := env.sDev })
    else if env.isDir then
      .ok (statFinish env { stat0 with dev := env.sDev, ino := env.inodeIno })
    else .ok (statFinish env stat0)

/-- The `CONFIG_KSU_SUSFS_SUS_OVERLAYFS` short-circuit: when the lower data
path resolves, return its `vfs_getattr` result verbatim; otherwise continue
with the normal projection. -/
def susfsShort (env : GetattrEnv) : Option (Except Int Kstat) → Except Int Kstat
  | some r => r
  | none => ovl_getattr_core env env.realStat

/-- `ovl_getattr`: stat projection of the overlay. -/
def ovl_getattr (env : GetattrEnv) : Except Int Kstat :=
  if env.susfs then susfsShort env env.lowerdata
  else ovl_getattr_core env env.realStat

theorem statFinish_dev (env : GetattrEnv) (s : Kstat) :
    (statFinish env s).dev = s.dev := by
  simp only [statFinish]
  split_ifs <;> rfl

theorem statFinish_ino (env : GetattrEnv) (s : Kstat) :
    (statFinish env s).ino = s.ino := by
  simp only [statFinish]
  split_ifs <;> rfl

/-- C10: with `CONFIG_KSU_SUSFS_SUS_OVERLAYFS` enabled and a resolving lower
data path, `ovl_getattr` returns the lower object's attributes verbatim and
skips every stat-projection rule (the result does not depend on the
same-storage, origin, merge or index state). -/
theorem ovl_getattr_susfs_short (env : GetattrEnv) (r : Except Int Kstat)
    (hs : env.susfs = true) (hl : env.lowerdata = some r) :
    ovl_getattr env = r := by
  rw [ovl_getattr, if_pos hs, hl]
  rfl

/-- Witness for C10: a lower stat with a foreign device id is returned
untouched even though every projection rule would apply. -/
theorem ovl_getattr_susfs_short_witness :
    ovl_getattr
      { susfs := true, lowerdata := some (.ok { dev := 99, ino := 7, nlink := 3 }),
        isDir := false, realStat := .ok { dev := 1, ino := 50, nlink := 2 },
        sameSb := true, typeOrigin := true, typeMerge := false,
        lowerStat := .ok { dev := 1, ino := 5, nlink := 1 },
        sDev := 1, inodeIno := 123, inodeNlink := 2, flagIndex := true }
      = .ok { dev := 99, ino := 7, nlink := 3 } :=
  ovl_getattr_susfs_short
    { susfs := true, lowerdata := some (.ok { dev := 99, ino := 7, nlink := 3 }),
      isDir := false, realStat := .ok { dev := 1, ino := 50, nlink := 2 },
      sameSb := true, typeOrigin := true, typeMerge := false,
      lowerStat := .ok { dev := 1, ino := 5, nlink := 1 },
      sDev := 1, inodeIno := 123, inodeNlink := 2, flagIndex := true }
    (.ok { dev := 99, ino := 7, nlink := 3 }) rfl rfl

/-- C5 as stated: on a same-storage mount, two nodes with tracked read-only
origins of link count 1 report, on a successful stat, the mount's own device
id and — when they share the same origin — the same node number. -/
def sameStorageStatClaim : Prop :=
  ∀ (e1 e2 : GetattrEnv) (s1 s2 ls1 ls2 : Kstat),
    e1.sDev = e2.sDev →
    e1.sameSb = true → e2.sameSb = true →
    e1.typeOrigin = true → e2.typeOrigin = true →
    e1.lowerStat = .ok ls1 → e2.lowerStat = .ok ls2 →
    ls1.nlink = 1 → ls2.nlink = 1 →
    ovl_getattr e1 = .ok s1 → ovl_getattr e2 = .ok s2 →
    (s1.dev = s2.dev ∧ s1.dev = e1.sDev ∧ s2.dev = e2.sDev
      ∧ (ls1.ino = ls2.ino → s1.ino = s2.ino))

/-- Environment refuting C5 as stated: the SUSFS short-circuit applies, so the
stat reports the lower filesystem's device id 99 instead of the overlay's 1. -/
def susfsCexEnv : GetattrEnv :=
  { susfs := true, lowerdata := some (.ok { dev := 99, ino := 7, nlink := 3 }),
    isDir := false, realStat := .ok { dev := 1, ino := 50, nlink := 2 },
    sameSb := true, typeOrigin := true, typeMerge := false,
    lowerStat := .ok { dev := 1, ino := 5, nlink := 1 },
    sDev := 1, inodeIno := 123, inodeNlink := 2, flagIndex := false }

/-- Counterexample to C5 as stated: with `CONFIG_KSU_SUSFS_SUS_OVERLAYFS`
enabled and a resolving lower data path, a successful stat on a same-storage
origin node with origin link count 1 reports device id 99, not the mount's
own device id 1. -/
theorem sameStorageStatClaim_cex : ¬ sameStorageStatClaim := by
  intro h
  have hc := h susfsCexEnv susfsCexEnv
      { dev := 99, ino := 7, nlink := 3 } { dev := 99, ino := 7, nlink := 3 }
      { dev := 1, ino := 5, nlink := 1 } { dev := 1, ino := 5, nlink := 1 }
      rfl rfl rfl rfl rfl rfl rfl rfl rfl rfl rfl
  exact absurd hc.2.1 (by decide)

/-- Per-node core of the amended C5: when the SUSFS short-circuit does not
apply, a successful stat of a same-storage origin node with origin link
count 1 reports the overlay device id and the origin's inode number. -/
theorem ovl_getattr_origin_nlink1 (e : GetattrEnv) (s ls : Kstat)
    (hn : e.susfs = false ∨ e.lowerdata = none)
    (hsb : e.sameSb = true) (ho : e.typeOrigin = true)
    (hls : e.lowerStat = .ok ls) (hnl : ls.nlink = 1)
    (hr : ovl_getattr e = .ok s) :
    s.dev = e.sDev ∧ s.ino = ls.ino := by
  have hcore : ovl_getattr_core e e.realStat = .ok s := by
    rcases hn with hn | hn
    · rwa [ovl_getattr, if_neg (by rw [hn]; simp)] at hr
    · by_cases hs : e.susfs = true
      · rw [ovl_getattr, if_pos hs, hn] at hr
        simpa [susfsShort] using hr
      · rwa [ovl_getattr, if_neg hs] at hr
  rcases hrs : e.realStat with er | stat0
  · rw [hrs] at hcore
    simp [ovl_getattr_core] at hcore
  · rw [hrs] at hcore
    simp only [ovl_getattr_core] at hcore
    rw [if_pos hsb, if_pos ho, hls] at hcore
    simp only [ovl_getattr_origin] at hcore
    rw [if_pos (Or.inr (Or.inl hnl))] at hcore
    simp only [Except.ok.injEq] at hcore
    rw [← hcore]
    rw [statFinish_dev, statFinish_ino]
    exact ⟨rfl, rfl⟩

/-- C5 (amended): the stated stability of the (device, node-number) pair
holds provided the SUSFS lower-data short-circuit does not apply to either
node (the config is disabled or the lower data path does not resolve), as
claim C10 requires. -/
theorem sameStorage_stat_stable (e1 e2 : GetattrEnv) (s1 s2 ls1 ls2 : Kstat)
    (hn1 : e1.susfs = false ∨ e1.lowerdata = none)
    (hn2 : e2.susfs = false ∨ e2.lowerdata = none)
    (hdev : e1.sDev = e2.sDev)
    (hsb1 : e1.sameSb = true) (hsb2 : e2.sameSb = true)
    (ho1 : e1.typeOrigin = true) (ho2 : e2.typeOrigin = true)
    (hls1 : e1.lowerStat = .ok ls1) (hls2 : e2.lowerStat = .ok ls2)
    (hnl1 : ls1.nlink = 1) (hnl2 : ls2.nlink = 1)
    (hr1 : ovl_getattr e1 = .ok s1) (hr2 : ovl_getattr e2 = .ok s2) :
    s1.dev = s2.dev ∧ s1.dev = e1.sDev ∧ s2.dev = e2.sDev
      ∧ (ls1.ino = ls2.ino → s1.ino = s2.ino) := by
  have h1 := ovl_getattr_origin_nlink1 e1 s1 ls1 hn1 hsb1 ho1 hls1 hnl1 hr1
  have h2 := ovl_getattr_origin_nlink1 e2 s2 ls2 hn2 hsb2 ho2 hls2 hnl2 hr2
  refine ⟨by rw [h1.1, h2.1, hdev], h1.1, h2.1, fun hi => ?_⟩
  rw [h1.2, h2.2, hi]

/-- Witness for the amended C5: the SUSFS short-circuit disabled, one origin
shared by both stats. -/
theorem sameStorage_stat_stable_witness :
    ((Kstat.mk 3 5 2).dev = (Kstat.mk 3 5 2).dev
      ∧ (Kstat.mk 3 5 2).dev = 3 ∧ (Kstat.mk 3 5 2).dev = 3
      ∧ ((Kstat.mk 1 5 1).ino = (Kstat.mk 1 5 1).ino
          → (Kstat.mk 3 5 2).ino = (Kstat.mk 3 5 2).ino)) :=
  sameStorage_stat_stable
    { susfs := false, lowerdata := none, isDir := false,
      realStat := .ok { dev := 7, ino := 50, nlink := 2 },
      sameSb := true, typeOrigin := true, typeMerge := false,
      lowerStat := .ok { dev := 1, ino := 5, nlink := 1 },
      sDev := 3, inodeIno := 99, inodeNlink := 2, flagIndex := false }
    { susfs := false, lowerdata := none, isDir := false,
      realStat := .ok { dev := 7, ino := 50, nlink := 2 },
      sameSb := true, typeOrigin := true, typeMerge := false,
      lowerStat := .ok { dev := 1, ino := 5, nlink := 1 },
      sDev := 3, inodeIno := 99, inodeNlink := 2, flagIndex := false }
    (Kstat.mk 3 5 2) (Kstat.mk 3 5 2) (Kstat.mk 1 5 1) (Kstat.mk 1 5 1)
    (Or.inl rfl) (Or.inl rfl) rfl rfl rfl rfl rfl rfl rfl rfl rfl
    (by rfl) (by rfl)

/-!  ## Set-attributes passthrough (`ovl_setattr`)  -/

/-- The attribute-change request (`struct iattr`): the `ATTR_KILL_SUID` /
`ATTR_KILL_SGID` / `ATTR_MODE` validity bits the code manipulates, plus an
opaque payload standing for the remaining requested changes. -/
structure Iattr where
  killSuid : Bool
  killSgid : Bool
  modeValid : Bool
  payload : Nat
  deriving DecidableEq

/-- State of one logical node as `ovl_setattr` observes it: whether a
writable (upper) object exists, its metadata, and the overlay inode's cached
metadata. -/
structure NodeState where
  hasUpper : Bool
  upperMeta : Nat
  ovlMeta : Nat
  deriving DecidableEq

/-- Environment of one `ovl_setattr` call: results of the external calls
(`setattr_prepare`, `ovl_want_write`, `ovl_copy_up`, `notify_change`; `0`
means success, as in C), the VFS semantics of applying an attribute change to
the upper inode, and the upper metadata a successful promotion establishes. -/
structure SetattrEnv where
  prepErr : Int
  wantWriteErr : Int
  copyUpErr : Int
  notifyErr : Int
  applyAttr : Iattr → Nat → Nat
  copyUpMeta : Nat

/-- Modelled from the spec: `ovl_copy_up` (the promotion engine, outside the
excerpt) must, on success, guarantee the node's upper reference becomes
present (§6); a node that already has one is untouched. -/
def ovl_copy_up_model (copyUpMeta : Nat) (st : NodeState) : NodeState :=
  if st.hasUpper then st else { st with hasUpper := true, upperMeta := copyUpMeta }

/-- `notify_change` on the upper dentry followed (on success) by
`ovl_copyattr` refreshing the overlay inode from the upper inode. -/
def ovl_setattr_notify (env : SetattrEnv) (st1 : NodeState) (attr1 : Iattr) : Int × NodeState :=
  if env.notifyErr ≠ 0 then (env.notifyErr, st1)
  else (0, { hasUpper := st1.hasUpper,
             upperMeta := env.applyAttr attr1 st1.upperMeta,
             ovlMeta := env.applyAttr attr1 st1.upperMeta })

/-- `ovl_setattr`: `setattr_prepare` first, then write intent, unconditional
promotion, the SUID/SGID-kill mode suppression, and the locked
`notify_change` + `ovl_copyattr`. -/
def ovl_setattr (env : SetattrEnv) (st : NodeState) (attr : Iattr) : Int × NodeState :=
  if env.prepErr ≠ 0 then (env.prepErr, st)
  else if env.wantWriteErr ≠ 0 then (env.wantWriteErr, st)
  else if env.copyUpErr ≠ 0 then (env.copyUpErr, st)
  else
    ovl_setattr_notify env (ovl_copy_up_model env.copyUpMeta st)
      (if attr.killSuid || attr.killSgid then { attr with modeValid := false } else attr)

/-- C6: `ovl_setattr` runs the standard precondition validation before
acquiring write intent or triggering promotion — a `setattr_prepare` failure
is returned with the node state untouched, whatever the write-intent,
promotion and delegate outcomes would have been — and on every successful
return on a node that lacked a writable object, a writable object exists
afterwards and the overlay inode's cached metadata equals the upper
object's. -/
theorem ovl_setattr_spec (env : SetattrEnv) (st : NodeState) (attr : Iattr) :
    (env.prepErr ≠ 0 →
      ∀ we cu ne, ovl_setattr
          { env with wantWriteErr := we, copyUpErr := cu, notifyErr := ne } st attr
        = (env.prepErr, st))
    ∧ ((ovl_setattr env st attr).1 = 0 → st.hasUpper = false →
        (ovl_setattr env st attr).2.hasUpper = true
        ∧ (ovl_setattr env st attr).2.ovlMeta = (ovl_setattr env st attr).2.upperMeta) := by
  constructor
  · intro hp we cu ne
    simp [ovl_setattr, hp]
  · intro h0 hu
    by_cases hp : env.prepErr ≠ 0
    · simp [ovl_setattr, hp] at h0
    · by_cases hw : env.wantWriteErr ≠ 0
      · simp [ovl_setattr, hp, hw] at h0
      · by_cases hc : env.copyUpErr ≠ 0
        · simp [ovl_setattr, hp, hw, hc] at h0
        · by_cases hn : env.notifyErr ≠ 0
          · simp [ovl_setattr, ovl_setattr_notify, hp, hw, hc, hn] at h0
          · simp [ovl_setattr, ovl_setattr_notify, ovl_copy_up_model, hp, hw, hc, hn, hu]

/-- Witness for C6: a failing precondition check returns `-EACCES` untouched;
a full success on an upper-less node leaves an upper object and refreshed
metadata. -/
theorem ovl_setattr_spec_witness :
    ovl_setattr
        { prepErr := -13, wantWriteErr := 0, copyUpErr := 0, notifyErr := 0,
          applyAttr := fun _ m => m + 1, copyUpMeta := 7 }
        { hasUpper := false, upperMeta := 0, ovlMeta := 5 }
        { killSuid := false, killSgid := false, modeValid := true, payload := 0 }
      = (-13, { hasUpper := false, upperMeta := 0, ovlMeta := 5 })
    ∧ ((ovl_setattr
          { prepErr := 0, wantWriteErr := 0, copyUpErr := 0, notifyErr := 0,
            applyAttr := fun _ m => m + 1, copyUpMeta := 7 }
          { hasUpper := false, upperMeta := 0, ovlMeta := 5 }
          { killSuid := false, killSgid := false, modeValid := true, payload := 0 }).2.hasUpper
        = true
      ∧ (ovl_setattr
          { prepErr := 0, wantWriteErr := 0, copyUpErr := 0, notifyErr := 0,
            applyAttr := fun _ m => m + 1, copyUpMeta := 7 }
          { hasUpper := false, upperMeta := 0, ovlMeta := 5 }
          { killSuid := false, killSgid := false, modeValid := true, payload := 0 }).2.ovlMeta
        = (ovl_setattr
          { prepErr := 0, wantWriteErr := 0, copyUpErr := 0, notifyErr := 0,
            applyAttr := fun _ m => m + 1, copyUpMeta := 7 }
          { hasUpper := false, upperMeta := 0, ovlMeta := 5 }
          { killSuid := false, killSgid := false, modeValid := true, payload := 0 }).2.upperMeta) :=
  ⟨(ovl_setattr_spec
      { prepErr := -13, wantWriteErr := 0, copyUpErr := 0, notifyErr := 0,
        applyAttr := fun _ m => m + 1, copyUpMeta := 7 }
      { hasUpper := false, upperMeta := 0, ovlMeta := 5 }
      { killSuid := false, killSgid := false, modeValid := true, payload := 0 }).1
      (by decide) 0 0 0,
   (ovl_setattr_spec
      { prepErr := 0, wantWriteErr := 0, copyUpErr := 0, notifyErr := 0,
        applyAttr := fun _ m => m + 1, copyUpMeta := 7 }
      { hasUpper := false, upperMeta := 0, ovlMeta := 5 }
      { killSuid := false, killSgid := false, modeValid := true, payload := 0 }).2
      (by rfl) rfl⟩

/-!  ## Permission check (`ovl_permission`)  -/

/-- A `MAY_*` permission mask, one flag per field the code manipulates
(`MAY_READ`, `MAY_WRITE`, `MAY_APPEND`, `MAY_EXEC`, `MAY_NOT_BLOCK`). -/
structure Mask where
  read : Bool
  write : Bool
  append : Bool
  exec : Bool
  notBlock : Bool
  deriving DecidableEq

/-- Environment of one `ovl_permission` call: the upper and lower inode
identities, whether the real inode is a special file, and the two external
checks (`generic_permission` on the overlay inode with the caller's
credentials, `inode_permission` on the real inode with the mounter's). -/
structure PermEnv where
  upper : Option Nat
  lower : Option Nat
  special : Bool
  generic : Mask → Int
  realPerm : Nat → Mask → Int

/-- `realinode = upperinode ?: ovl_inode_lower(inode)`. -/
def realIdOf : Option Nat → Option Nat → Option Nat
  | some u, _ => some u
  | none, lo => lo

/-- The mask delegated to the underlying inode: with no upper object, a
non-special file and a write request, drop write/append and add read (so the
mounter can read the file for a later copy-up). -/
def ovl_real_mask (hasUpper special : Bool) (mask : Mask) : Mask :=
  if !hasUpper && !special && mask.write
  then { mask with write := false, append := false, read := true }
  else mask

/-- Body of `ovl_permission` once the real inode is resolved (`-ECHILD` when
none is, in RCU walk): the generic check on the overlay inode first, then the
delegated check on the real inode under the mounter's credentials. -/
def ovl_permission_real (env : PermEnv) (mask : Mask) : Option Nat → Int
  | none => -10
  | some real =>
    if env.generic mask ≠ 0 then env.generic mask
    else env.realPerm real (ovl_real_mask env.upper.isSome env.special mask)

/-- `ovl_permission`. -/
def ovl_permission (env : PermEnv) (mask : Mask) : Int :=
  ovl_permission_real env mask (realIdOf env.upper env.lower)

/-- C7: on a node with no writable object, a non-special underlying file and
a mask including write, the delegated mask has write and append removed and
read added; the caller-facing generic check still runs first on the
unmodified mask, and its failure is returned without consulting the
underlying object (the result is independent of the delegated check). -/
theorem ovl_permission_downgrade (env : PermEnv) (mask : Mask) (l : Nat)
    (hup : env.upper = none) (hlo : env.lower = some l)
    (hsp : env.special = false) (hw : mask.write = true) :
    ovl_real_mask env.upper.isSome env.special mask
      = { mask with write := false, append := false, read := true }
    ∧ ovl_permission env mask
      = (if env.generic mask ≠ 0 then env.generic mask
         else env.realPerm l { mask with write := false, append := false, read := true })
    ∧ (env.generic mask ≠ 0 →
        ∀ rp, ovl_permission { env with realPerm := rp } mask = env.generic mask) := by
  have hm : ovl_real_mask env.upper.isSome env.special mask
      = { mask with write := false, append := false, read := true } := by
    rw [hup, hsp]
    simp [ovl_real_mask, hw]
  refine ⟨hm, ?_, ?_⟩
  · rw [ovl_permission, hup, hlo]
    simp only [realIdOf, ovl_permission_real]
    rw [hm]
  · intro hg rp
    rw [ovl_permission]
    simp only [hup, hlo, realIdOf, ovl_permission_real]
    simp [hg]

/-- Witness for C7: a write-mode access on a lower-only regular file; with a
passing generic check the downgraded mask reaches the delegate, and with a
failing generic check the delegate is never consulted. -/
theorem ovl_permission_downgrade_witness :
    ovl_real_mask (none : Option Nat).isSome false
        { read := false, write := true, append := true, exec := false, notBlock := false }
      = { read := true, write := false, append := false, exec := false, notBlock := false }
    ∧ ovl_permission
        { upper := none, lower := some 3, special := false,
          generic := fun _ => 0, realPerm := fun _ _ => -13 }
        { read := false, write := true, append := true, exec := false, notBlock := false }
      = -13
    ∧ ovl_permission
        { upper := none, lower := some 3, special := false,
          generic := fun _ => -13,
          realPerm := fun _ _ => 0 }
        { read := false, write := true, append := true, exec := false, notBlock := false }
      = -13 := by
  refine ⟨?_, ?_, ?_⟩
  · exact (ovl_permission_downgrade
      { upper := none, lower := some 3, special := false,
        generic := fun _ => 0, realPerm := fun _ _ => -13 }
      { read := false, write := true, append := true, exec := false, notBlock := false }
      3 rfl rfl rfl rfl).1
  · exact (ovl_permission_downgrade
      { upper := none, lower := some 3, special := false,
        generic := fun _ => 0, realPerm := fun _ _ => -13 }
      { read := false, write := true, append := true, exec := false, notBlock := false }
      3 rfl rfl rfl rfl).2.1
  · exact (ovl_permission_downgrade
      { upper := none, lower := some 3, special := false,
        generic := fun _ => -13, realPerm := fun _ _ => -13 }
      { read := false, write := true, append := true, exec := false, notBlock := false }
      3 rfl rfl rfl rfl).2.2 (by decide) (fun _ _ => 0)

/-!  ## Extended-attribute list filtering (`ovl_can_list` / `ovl_listxattr`)  -/

/-- Modelled from the spec: `XATTR_TRUSTED_PREFIX` — the privileged
(`trusted.`) namespace — is defined in `<linux/xattr.h>`, outside the
excerpt. -/
def xattrTrustedPfx : List Char := "trusted.".data

/-- Modelled from the spec: `OVL_XATTR_PREFIX` — the reserved internal
overlay namespace (`trusted.overlay.`) — is defined in `overlayfs.h`,
outside the excerpt. -/
def ovlXattrPfx : List Char := "trusted.overlay.".data

/-- `ovl_is_private_xattr`: does the name live in the reserved internal
namespace? -/
def ovl_is_private_xattr (s : List Char) : Bool := ovlXattrPfx.isPrefixOf s

/-- `ovl_can_list`: list every non-trusted attribute; never list
`trusted.overlay.*`; list other `trusted.*` only for a caller holding
`CAP_SYS_ADMIN`. -/
def ovl_can_list (capable : Bool) (s : List Char) : Bool :=
  if !(xattrTrustedPfx.isPrefixOf s) then true
  else !ovl_is_private_xattr s && capable

/-- `ovl_listxattr` (the `size > 0` path): delegate to the real dentry, then
drop every name `ovl_can_list` refuses (the C loop performs this filtering
in place with `memmove`). -/
def ovl_listxattr (capable : Bool) :
    Except Int (List (List Char)) → Except Int (List (List Char))
  | .error e => .error e
  | .ok names => .ok (names.filter (ovl_can_list capable))

theorem listIsPfxOf_trans (l1 l2 l3 : List Char)
    (h1 : l1.isPrefixOf l2 = true) (h2 : l2.isPrefixOf l3 = true) :
    l1.isPrefixOf l3 = true := by
  cases l1 with
  | nil => simp
  | cons a as =>
    cases l2 with
    | nil => simp at h1
    | cons b bs =>
      cases l3 with
      | nil => simp at h2
      | cons c cs =>
        simp [List.isPrefixOf] at h1 h2 ⊢
        exact ⟨h1.1.trans h2.1, h1.2.trans h2.2⟩

theorem ovlPfx_implies_trustedPfx (s : List Char)
    (h : ovlXattrPfx.isPrefixOf s = true) : xattrTrustedPfx.isPrefixOf s = true :=
  listIsPfxOf_trans xattrTrustedPfx ovlXattrPfx s (by decide) h

/-- C8: a successful list on an object carrying an internal-namespace
attribute and a (non-internal) privileged-namespace attribute retains the
privileged one exactly for capable callers, never retains the internal one,
and always retains non-privileged names. -/
theorem ovl_listxattr_filtering (capable : Bool) (names : List (List Char))
    (intr tr : List Char)
    (hi : ovlXattrPfx.isPrefixOf intr = true)
    (ht : xattrTrustedPfx.isPrefixOf tr = true)
    (ht2 : ovlXattrPfx.isPrefixOf tr = false) (htm : tr ∈ names) :
    ovl_listxattr capable (.ok names) = .ok (names.filter (ovl_can_list capable))
    ∧ intr ∉ names.filter (ovl_can_list capable)
    ∧ (tr ∈ names.filter (ovl_can_list capable) ↔ capable = true)
    ∧ ∀ s ∈ names, xattrTrustedPfx.isPrefixOf s = false
        → s ∈ names.filter (ovl_can_list capable) := by
  refine ⟨rfl, ?_, ?_, ?_⟩
  · intro hmem
    rw [List.mem_filter] at hmem
    have hcan := hmem.2
    rw [ovl_can_list, if_neg (by simp [ovlPfx_implies_trustedPfx intr hi])] at hcan
    rw [ovl_is_private_xattr, hi] at hcan
    simp at hcan
  · rw [List.mem_filter]
    rw [ovl_can_list, if_neg (by simp [ht])]
    rw [ovl_is_private_xattr, ht2]
    simp [htm]
  · intro s hs hnt
    rw [List.mem_filter]
    refine ⟨hs, ?_⟩
    rw [ovl_can_list, if_pos (by simp [hnt])]

/-- Witness for C8: `trusted.overlay.nlink` and `trusted.foo` carried next to
`user.x`; the capable caller sees `trusted.foo` but not the internal name,
and `user.x` survives. -/
theorem ovl_listxattr_filtering_witness :
    ovl_listxattr true
        (.ok ["trusted.overlay.nlink".data, "trusted.foo".data, "user.x".data])
      = .ok (["trusted.overlay.nlink".data, "trusted.foo".data, "user.x".data].filter
          (ovl_can_list true))
    ∧ "trusted.overlay.nlink".data
        ∉ ["trusted.overlay.nlink".data, "trusted.foo".data, "user.x".data].filter
            (ovl_can_list true)
    ∧ ("trusted.foo".data
        ∈ ["trusted.overlay.nlink".data, "trusted.foo".data, "user.x".data].filter
            (ovl_can_list true) ↔ true = true)
    ∧ "user.x".data
        ∈ ["trusted.overlay.nlink".data, "trusted.foo".data, "user.x".data].filter
            (ovl_can_list true) := by
  have h := ovl_listxattr_filtering true
      ["trusted.overlay.nlink".data, "trusted.foo".data, "user.x".data]
      ("trusted.overlay.nlink".data) ("trusted.foo".data)
      (by decide) (by decide) (by decide) (by decide)
  exact ⟨h.1, h.2.1, h.2.2.1, h.2.2.2 ("user.x".data) (by decide) (by decide)⟩

/-!  ## Extended-attribute set/remove (`ovl_xattr_set`)  -/

/-- Environment of one `ovl_xattr_set` call: results of `ovl_want_write`, of
the existence pre-check `vfs_getxattr(realdentry, name, NULL, 0)` on the
read-only object (size ≥ 0, or a negative errno when the attribute is
absent/unreadable), of `ovl_copy_up` (promotion, modelled from the spec: on
success the writable object exists), and of the final
`vfs_setxattr`/`vfs_removexattr`.  `0` means success, as in C. -/
structure XattrSetEnv where
  wantWriteErr : Int
  lowerGetxattr : Int
  copyUpErr : Int
  applyErr : Int
  deriving DecidableEq

/-- `ovl_xattr_set` on a node with writable-object state `hasUpper`;
`isSet = true` models `value != NULL` (set), `isSet = false` models removal.
Returns the errno and whether a writable object exists afterwards. -/
def ovl_xattr_set (env : XattrSetEnv) (hasUpper isSet : Bool) : Int × Bool :=
  if env.wantWriteErr ≠ 0 then (env.wantWriteErr, hasUpper)
  else if !isSet && !hasUpper && decide (env.lowerGetxattr < 0) then
    (env.lowerGetxattr, hasUpper)
  else if !hasUpper then
    if env.copyUpErr ≠ 0 then (env.copyUpErr, hasUpper)
    else (env.applyErr, true)
  else (env.applyErr, hasUpper)

/-- C9 as stated: for every set **or** remove targeting an absent attribute
on a node with no writable object, the existence pre-check error is
propagated and no writable object is created. -/
def xattrAbsentPrecheckClaim : Prop :=
  ∀ (env : XattrSetEnv) (isSet : Bool),
    env.wantWriteErr = 0 →
    env.lowerGetxattr < 0 →
    ovl_xattr_set env false isSet = (env.lowerGetxattr, false)

/-- Counterexample to C9 as stated: `ovl_xattr_set` performs the existence
pre-check only for removal (`!value`); a set of an absent attribute on an
upper-less node (pre-check would yield `-ENODATA`) triggers promotion and
succeeds instead of propagating the pre-check error. -/
theorem xattrAbsentPrecheckClaim_cex : ¬ xattrAbsentPrecheckClaim := by
  intro h
  have hc := h { wantWriteErr := 0, lowerGetxattr := -61, copyUpErr := 0, applyErr := 0 }
    true rfl (by decide)
  exact absurd hc (by decide)

/-- C9 (amended): for every extended-attribute **remove** targeting an absent
attribute on a node with no writable object, `ovl_xattr_set` checks the
attribute's existence on the read-only object before triggering promotion,
propagates the pre-check error directly, and returns without creating a
writable object — whatever the promotion outcome would have been. -/
theorem ovl_xattr_remove_precheck (env : XattrSetEnv)
    (hw : env.wantWriteErr = 0) (habs : env.lowerGetxattr < 0) :
    ovl_xattr_set env false false = (env.lowerGetxattr, false) := by
  simp [ovl_xattr_set, hw, habs]

/-- Witness for C9 (amended): removal of an absent attribute (`-ENODATA`)
with a promotion that would succeed still propagates `-ENODATA` and creates
no writable object. -/
theorem ovl_xattr_remove_precheck_witness :
    ovl_xattr_set { wantWriteErr := 0, lowerGetxattr := -61, copyUpErr := 0, applyErr := 0 }
      false false = (-61, false) :=
  ovl_xattr_remove_precheck
    { wantWriteErr := 0, lowerGetxattr := -61, copyUpErr := 0, applyErr := 0 }
    rfl (by decide)
